import Mathlib

/-!
Verification development for the projectile-motion simulation core
(`src/physics/equations.ts`, `src/physics/constants.ts`, and the
`useSimulation` hook).

Numbers are modelled as exact rationals (for the executable engine model)
and reals (for the algebraic kinematics facts); the kinematic functions are
defined polymorphically over a field, mirroring the arithmetic of the
source line by line.

The `useSimulation` hook is embedded as an explicit state machine
`EngineState`.  A scheduled `requestAnimationFrame` callback is a closure
that captured `results` (the `CalculatedResults` of the render that created
it) and `params.gravity`; it re-schedules itself, so a tick chain keeps the
values captured when it was scheduled.  This is modelled by storing the
captured `Cached` record inside `animationRef`.  `onUpdate` / `onComplete`
callback invocations are counted.
-/

/-- Fixed virtual-clock step, `TIME_STEP = 0.016` from `constants.ts`. -/
def TIME_STEP : ℚ := 0.016

/-- `Vector2D` from `types.ts`. -/
structure Vector2D (α : Type) where
  x : α
  y : α
deriving DecidableEq, Repr

/-- `CalculatedResults` from `types.ts`. -/
structure CalculatedResults (α : Type) where
  initialVelocityX : α
  initialVelocityY : α
  timeToMaxHeight : α
  timeOfFlight : α
  maxHeight : α
  horizontalRange : α
deriving DecidableEq, Repr

/-- `ProjectileState` from `types.ts`. -/
structure ProjectileState (α : Type) where
  position : Vector2D α
  velocity : Vector2D α
  time : α
  isActive : Bool
deriving DecidableEq, Repr

/-- `TrajectoryData` from `types.ts`: three parallel sequences. -/
structure TrajectoryData (α : Type) where
  positions : List (Vector2D α)
  velocities : List (Vector2D α)
  times : List α
deriving DecidableEq, Repr

/-- `calculateTimeToMaxHeight` from `equations.ts`: `vy / g`. -/
def calculateTimeToMaxHeight {α : Type} [Field α] (initialVelocityY gravity : α) : α :=
  initialVelocityY / gravity

/-- `calculateTimeOfFlight` from `equations.ts`: `(2 * vy) / g`. -/
def calculateTimeOfFlight {α : Type} [Field α] (initialVelocityY gravity : α) : α :=
  (2 * initialVelocityY) / gravity

/-- `calculateMaxHeight` from `equations.ts`: `vy * vy / (2 * g)`. -/
def calculateMaxHeight {α : Type} [Field α] (initialVelocityY gravity : α) : α :=
  (initialVelocityY * initialVelocityY) / (2 * gravity)

/-- `calculateHorizontalRange` from `equations.ts`: `vx * T`. -/
def calculateHorizontalRange {α : Type} [Field α] (initialVelocityX timeOfFlight : α) : α :=
  initialVelocityX * timeOfFlight

/-- `calculatePositionAtTime` from `equations.ts`:
`x = vx * t`, `y = vy * t - 0.5 * g * t * t`. -/
def calculatePositionAtTime {α : Type} [Field α]
    (initialVelocityX initialVelocityY gravity time : α) : Vector2D α :=
  { x := initialVelocityX * time
    y := initialVelocityY * time - (1 / 2) * gravity * time * time }

/-- `calculateVelocityAtTime` from `equations.ts`:
`x = vx` (constant), `y = vy - g * t`. -/
def calculateVelocityAtTime {α : Type} [Field α]
    (initialVelocityX initialVelocityY gravity time : α) : Vector2D α :=
  { x := initialVelocityX
    y := initialVelocityY - gravity * time }

/-- `createInitialState` from `useSimulation.ts`. -/
def createInitialState : ProjectileState ℚ :=
  { position := { x := 0, y := 0 }
    velocity := { x := 0, y := 0 }
    time := 0
    isActive := false }

/-- The values captured by an animation-frame closure at the render that
scheduled it: the `results` bundle and `params.gravity` (the only part of
`params` that `updateSimulation` reads). -/
structure Cached where
  results : CalculatedResults ℚ
  gravity : ℚ
deriving DecidableEq, Repr

/-- The state owned by one instance of the `useSimulation` hook.
`results` and `gravity` are the current render's values (recomputed from
`params` on every render); `animationRef` holds the pending
`requestAnimationFrame` callback together with the values it captured, or
`none` when no tick is scheduled; `updateCount` / `completeCount` count
`onUpdate` / `onComplete` invocations. -/
structure EngineState where
  results : CalculatedResults ℚ
  gravity : ℚ
  state : ProjectileState ℚ
  isPlaying : Bool
  isPaused : Bool
  trajectory : TrajectoryData ℚ
  animationRef : Option Cached
  lastTimeRef : ℚ
  simulationTimeRef : ℚ
  updateCount : Nat
  completeCount : Nat
deriving DecidableEq, Repr

/-- The hook's state right after mounting, for a render whose parameters
derive `r` with gravity `g`. -/
def initialEngineState (r : CalculatedResults ℚ) (g : ℚ) : EngineState :=
  { results := r
    gravity := g
    state := createInitialState
    isPlaying := false
    isPaused := false
    trajectory := { positions := [], velocities := [], times := [] }
    animationRef := none
    lastTimeRef := 0
    simulationTimeRef := 0
    updateCount := 0
    completeCount := 0 }

/-- `updateSimulation` from `useSimulation.ts`, the body of one tick, run
with the closure values `c` it captured when it was scheduled.  The
completion branch (`currentTime > results.timeOfFlight`) clamps the final
sample and does not re-schedule; the ordinary branch appends the sample at
`currentTime`, advances the virtual clock by `TIME_STEP` and re-schedules
itself (the same closure `c`). -/
def updateSimulation (c : Cached) (s : EngineState) : EngineState :=
  let currentTime := s.simulationTimeRef
  if currentTime > c.results.timeOfFlight then
    let finalState : ProjectileState ℚ :=
      { position := { x := c.results.horizontalRange, y := 0 }
        velocity := { x := c.results.initialVelocityX, y := -c.results.initialVelocityY }
        time := c.results.timeOfFlight
        isActive := false }
    { s with
      state := finalState
      isPlaying := false
      trajectory :=
        { positions := s.trajectory.positions ++ [finalState.position]
          velocities := s.trajectory.velocities ++ [finalState.velocity]
          times := s.trajectory.times ++ [finalState.time] }
      completeCount := s.completeCount + 1
      animationRef := none }
  else
    let position := calculatePositionAtTime
      c.results.initialVelocityX c.results.initialVelocityY c.gravity currentTime
    let velocity := calculateVelocityAtTime
      c.results.initialVelocityX c.results.initialVelocityY c.gravity currentTime
    let newState : ProjectileState ℚ :=
      { position := position, velocity := velocity, time := currentTime, isActive := true }
    { s with
      state := newState
      trajectory :=
        { positions := s.trajectory.positions ++ [position]
          velocities := s.trajectory.velocities ++ [velocity]
          times := s.trajectory.times ++ [currentTime] }
      updateCount := s.updateCount + 1
      simulationTimeRef := currentTime + TIME_STEP
      animationRef := some c }

/-- Firing of the pending animation frame, if any: the scheduled closure is
consumed and `updateSimulation` runs with the values that closure captured. -/
def fireTick (s : EngineState) : EngineState :=
  match s.animationRef with
  | none => s
  | some c => updateSimulation c { s with animationRef := none }

/-- `play` from `useSimulation.ts`.  No-op while already playing; otherwise
sets the flags, re-seeds the trajectory with the analytic launch sample when
starting fresh (`simulationTimeRef = 0`), records `performance.now()` (the
argument `now`) and schedules a tick whose closure captures the current
render's `results` and `gravity`. -/
def play (now : ℚ) (s : EngineState) : EngineState :=
  if s.isPlaying then s
  else
    let withFlags := { s with isPlaying := true, isPaused := false }
    let withTraj :=
      if s.simulationTimeRef = 0 then
        { withFlags with
          trajectory :=
            { positions := [{ x := 0, y := 0 }]
              velocities := [{ x := s.results.initialVelocityX, y := s.results.initialVelocityY }]
              times := [0] } }
      else withFlags
    { withTraj with
      lastTimeRef := now
      animationRef := some { results := s.results, gravity := s.gravity } }

/-- `pause` from `useSimulation.ts`: cancels the pending frame and flips the
flags; everything else is untouched. -/
def pause (s : EngineState) : EngineState :=
  { s with animationRef := none, isPlaying := false, isPaused := true }

/-- `reset` from `useSimulation.ts`: cancels the pending frame, zeroes both
time refs, reverts the projectile state, clears the trajectory and both
flags. -/
def reset (s : EngineState) : EngineState :=
  { s with
    animationRef := none
    simulationTimeRef := 0
    lastTimeRef := 0
    state := createInitialState
    trajectory := { positions := [], velocities := [], times := [] }
    isPlaying := false
    isPaused := false }

/-- Replacing the launch parameters: a re-render recomputes `results` (and
`gravity`) for future closures, but the pending closure in `animationRef`
keeps the values it captured. -/
def setParams (r : CalculatedResults ℚ) (g : ℚ) (s : EngineState) : EngineState :=
  { s with results := r, gravity := g }

/-- `progress` from `useSimulation.ts`:
`timeOfFlight > 0 ? min(time / timeOfFlight, 1) : 0`. -/
def progress (s : EngineState) : ℚ :=
  if s.results.timeOfFlight > 0 then min (s.state.time / s.results.timeOfFlight) 1
  else 0

/-- The events the host can deliver to the hook: commands, a frame firing,
or a re-render with replaced parameters. -/
inductive Cmd where
  | play (now : ℚ)
  | pause
  | reset
  | tick
  | setParams (r : CalculatedResults ℚ) (g : ℚ)
deriving Repr

/-- One event applied to the engine state. -/
def step (c : Cmd) (s : EngineState) : EngineState :=
  match c with
  | Cmd.play now => play now s
  | Cmd.pause => pause s
  | Cmd.reset => reset s
  | Cmd.tick => fireTick s
  | Cmd.setParams r g => setParams r g s

/-- Run a list of events from a state. -/
def run (s : EngineState) (cs : List Cmd) : EngineState :=
  cs.foldl (fun t c => step c t) s

/-- A state is reachable when some event sequence from some freshly mounted
hook produces it. -/
def Reachable (s : EngineState) : Prop :=
  ∃ r g cs, run (initialEngineState r g) cs = s

/-- A run driven purely by frame firings: `play` on a freshly mounted hook,
then `n` animation frames. -/
def runEngine (r : CalculatedResults ℚ) (g now : ℚ) (n : ℕ) : EngineState :=
  fireTick^[n] (play now (initialEngineState r g))

/-- Concrete results fixture with `timeOfFlight = 1`. -/
def rEx : CalculatedResults ℚ :=
  { initialVelocityX := 3
    initialVelocityY := 4
    timeToMaxHeight := 1 / 2
    timeOfFlight := 1
    maxHeight := 4 / 5
    horizontalRange := 3 }

/-- Concrete results fixture whose `timeOfFlight` is exactly one step. -/
def rStepEx : CalculatedResults ℚ :=
  { initialVelocityX := 1
    initialVelocityY := 1
    timeToMaxHeight := TIME_STEP / 2
    timeOfFlight := TIME_STEP
    maxHeight := 1
    horizontalRange := 1 }

/-- Degenerate results fixture: zero vertical velocity, `timeOfFlight = 0`. -/
def rZeroEx : CalculatedResults ℚ :=
  { initialVelocityX := 0
    initialVelocityY := 0
    timeToMaxHeight := 0
    timeOfFlight := 0
    maxHeight := 0
    horizontalRange := 0 }

/-- A concrete state in the middle of a run (just after a fresh `play`). -/
def sPlayingEx : EngineState :=
  play 5 (initialEngineState rEx 10)

/-- A concrete running state whose virtual clock has passed the cached
`timeOfFlight`. -/
def sOverEx : EngineState :=
  { initialEngineState rEx 10 with
    isPlaying := true
    animationRef := some { results := rEx, gravity := 10 }
    simulationTimeRef := 2 }

lemma timeStepEq : TIME_STEP = 2 / 125 := by norm_num [TIME_STEP]

lemma timeStepPos : 0 < TIME_STEP := by norm_num [TIME_STEP]

/-- With no frame pending, a firing is a no-op. -/
lemma fireTick_of_none {s : EngineState} (h : s.animationRef = none) :
    fireTick s = s := by
  simp [fireTick, h]

/-- With no frame pending, any number of firings is a no-op. -/
lemma iterate_fireTick_of_none {s : EngineState} (h : s.animationRef = none) :
    ∀ m : ℕ, fireTick^[m] s = s := by
  intro m
  induction m with
  | zero => rfl
  | succ m ih => rw [Function.iterate_succ_apply', ih, fireTick_of_none h]

/-- An ordinary tick (virtual clock not past the cached bound), in record
form. -/
lemma fireTick_ordinary {s : EngineState} {c : Cached}
    (href : s.animationRef = some c)
    (h : ¬ s.simulationTimeRef > c.results.timeOfFlight) :
    fireTick s =
      { s with
        state :=
          { position := calculatePositionAtTime
              c.results.initialVelocityX c.results.initialVelocityY c.gravity
              s.simulationTimeRef
            velocity := calculateVelocityAtTime
              c.results.initialVelocityX c.results.initialVelocityY c.gravity
              s.simulationTimeRef
            time := s.simulationTimeRef
            isActive := true }
        trajectory :=
          { positions := s.trajectory.positions ++
              [calculatePositionAtTime
                c.results.initialVelocityX c.results.initialVelocityY c.gravity
                s.simulationTimeRef]
            velocities := s.trajectory.velocities ++
              [calculateVelocityAtTime
                c.results.initialVelocityX c.results.initialVelocityY c.gravity
                s.simulationTimeRef]
            times := s.trajectory.times ++ [s.simulationTimeRef] }
        updateCount := s.updateCount + 1
        simulationTimeRef := s.simulationTimeRef + TIME_STEP
        animationRef := some c } := by
  simp [fireTick, href, updateSimulation, h]

/-- A completing tick (virtual clock strictly past the cached bound), in
record form. -/
lemma fireTick_completion {s : EngineState} {c : Cached}
    (href : s.animationRef = some c)
    (h : s.simulationTimeRef > c.results.timeOfFlight) :
    fireTick s =
      { s with
        state :=
          { position := { x := c.results.horizontalRange, y := 0 }
            velocity := { x := c.results.initialVelocityX, y := -c.results.initialVelocityY }
            time := c.results.timeOfFlight
            isActive := false }
        isPlaying := false
        trajectory :=
          { positions := s.trajectory.positions ++ [{ x := c.results.horizontalRange, y := 0 }]
            velocities := s.trajectory.velocities ++
              [{ x := c.results.initialVelocityX, y := -c.results.initialVelocityY }]
            times := s.trajectory.times ++ [c.results.timeOfFlight] }
        completeCount := s.completeCount + 1
        animationRef := none } := by
  simp [fireTick, href, updateSimulation, h]

/-- A fresh `play` (not playing, virtual clock at zero), in record form. -/
lemma play_fresh {s : EngineState} (now : ℚ)
    (hp : s.isPlaying = false) (ht : s.simulationTimeRef = 0) :
    play now s =
      { s with
        isPlaying := true
        isPaused := false
        trajectory :=
          { positions := [{ x := 0, y := 0 }]
            velocities := [{ x := s.results.initialVelocityX, y := s.results.initialVelocityY }]
            times := [0] }
        lastTimeRef := now
        animationRef := some { results := s.results, gravity := s.gravity } } := by
  simp [play, hp, ht]

/-- C6: for every initial vertical velocity `vy` and every gravity `g > 0`,
`calculateTimeOfFlight vy g` equals exactly `2 * calculateTimeToMaxHeight vy g`. -/
theorem c6_timeOfFlight_eq_two_mul_timeToMaxHeight (vy g : ℝ) (hg : 0 < g) :
    calculateTimeOfFlight vy g = 2 * calculateTimeToMaxHeight vy g := by
  unfold calculateTimeOfFlight calculateTimeToMaxHeight
  rw [mul_div_assoc]

theorem c6_witness :
    (0 : ℝ) < 2 ∧
      calculateTimeOfFlight (3 : ℝ) 2 = 2 * calculateTimeToMaxHeight (3 : ℝ) 2 :=
  ⟨by norm_num, c6_timeOfFlight_eq_two_mul_timeToMaxHeight 3 2 (by norm_num)⟩

/-- C7: for gravity `g > 0`, `calculatePositionAtTime` at `t = 0` is `(0, 0)`,
and its `y` component at `t = calculateTimeOfFlight vy g` is `0`: the
projectile returns to launch height at exactly the time of flight. -/
theorem c7_position_launch_and_landing (vx vy g : ℝ) (hg : 0 < g) :
    calculatePositionAtTime vx vy g 0 = { x := 0, y := 0 } ∧
    (calculatePositionAtTime vx vy g (calculateTimeOfFlight vy g)).y = 0 := by
  constructor
  · unfold calculatePositionAtTime
    simp
  · unfold calculatePositionAtTime calculateTimeOfFlight
    have hg' : g ≠ 0 := ne_of_gt hg
    field_simp
    ring

theorem c7_witness :
    (0 : ℝ) < 2 ∧
      (calculatePositionAtTime (5 : ℝ) 3 2 0 = { x := 0, y := 0 } ∧
        (calculatePositionAtTime (5 : ℝ) 3 2 (calculateTimeOfFlight 3 2)).y = 0) :=
  ⟨by norm_num, c7_position_launch_and_landing 5 3 2 (by norm_num)⟩

/-- C4: when the virtual clock has passed the cached `timeOfFlight` and a
frame fires, exactly one final clamped sample
(position `(horizontalRange, 0)`, velocity `(vx, -vy)`, time `timeOfFlight`)
is appended, `isActive` becomes `false`, no further tick is scheduled, and
`onComplete` has fired exactly once however many more frames are delivered. -/
theorem c4_completion_tick (s : EngineState) (c : Cached)
    (href : s.animationRef = some c)
    (hover : s.simulationTimeRef > c.results.timeOfFlight)
    (hcc : s.completeCount = 0) :
    (fireTick s).trajectory.positions
        = s.trajectory.positions ++ [{ x := c.results.horizontalRange, y := 0 }] ∧
    (fireTick s).trajectory.velocities
        = s.trajectory.velocities ++
            [{ x := c.results.initialVelocityX, y := -c.results.initialVelocityY }] ∧
    (fireTick s).trajectory.times = s.trajectory.times ++ [c.results.timeOfFlight] ∧
    (fireTick s).state =
      { position := { x := c.results.horizontalRange, y := 0 }
        velocity := { x := c.results.initialVelocityX, y := -c.results.initialVelocityY }
        time := c.results.timeOfFlight
        isActive := false } ∧
    (fireTick s).isPlaying = false ∧
    (fireTick s).animationRef = none ∧
    (∀ m : ℕ, (fireTick^[m] (fireTick s)).completeCount = 1) := by
  rw [fireTick_completion href hover]
  refine ⟨rfl, rfl, rfl, rfl, rfl, rfl, ?_⟩
  intro m
  rw [iterate_fireTick_of_none rfl m]
  simp [hcc]

theorem c4_witness :
    (sOverEx.animationRef = some { results := rEx, gravity := 10 } ∧
      sOverEx.simulationTimeRef > rEx.timeOfFlight ∧ sOverEx.completeCount = 0) ∧
    ((fireTick sOverEx).trajectory.positions
        = sOverEx.trajectory.positions ++ [{ x := rEx.horizontalRange, y := 0 }] ∧
      (fireTick sOverEx).trajectory.velocities
        = sOverEx.trajectory.velocities ++
            [{ x := rEx.initialVelocityX, y := -rEx.initialVelocityY }] ∧
      (fireTick sOverEx).trajectory.times
        = sOverEx.trajectory.times ++ [rEx.timeOfFlight] ∧
      (fireTick sOverEx).state =
        { position := { x := rEx.horizontalRange, y := 0 }
          velocity := { x := rEx.initialVelocityX, y := -rEx.initialVelocityY }
          time := rEx.timeOfFlight
          isActive := false } ∧
      (fireTick sOverEx).isPlaying = false ∧
      (fireTick sOverEx).animationRef = none ∧
      (∀ m : ℕ, (fireTick^[m] (fireTick sOverEx)).completeCount = 1)) :=
  ⟨⟨rfl, by norm_num [sOverEx, rEx, initialEngineState], rfl⟩,
    c4_completion_tick sOverEx { results := rEx, gravity := 10 }
      rfl (by norm_num [sOverEx, rEx, initialEngineState]) rfl⟩

/-- C5: after `reset()` from any state, both time refs are `0`, the
projectile state is the zero state, all three trajectory sequences are
empty, no frame is pending, and a stale firing after the reset changes
nothing. -/
theorem c5_reset_spec (s : EngineState) :
    (reset s).simulationTimeRef = 0 ∧
    (reset s).lastTimeRef = 0 ∧
    (reset s).state =
      { position := { x := 0, y := 0 }
        velocity := { x := 0, y := 0 }
        time := 0
        isActive := false } ∧
    (reset s).trajectory = { positions := [], velocities := [], times := [] } ∧
    (reset s).isPlaying = false ∧
    (reset s).isPaused = false ∧
    (reset s).animationRef = none ∧
    fireTick (reset s) = reset s := by
  refine ⟨rfl, rfl, rfl, rfl, rfl, rfl, rfl, ?_⟩
  exact fireTick_of_none rfl

/-- C8: `pause()` while Running cancels the pending frame and stops ticking,
but preserves the projectile state, all three trajectory sequences and the
virtual clock; a later `play()` resumes from the preserved elapsed time. -/
theorem c8_pause_preserves (s : EngineState) (h : s.isPlaying = true) :
    (pause s).state = s.state ∧
    (pause s).trajectory = s.trajectory ∧
    (pause s).simulationTimeRef = s.simulationTimeRef ∧
    (pause s).animationRef = none ∧
    (pause s).isPlaying = false ∧
    (pause s).isPaused = true ∧
    fireTick (pause s) = pause s ∧
    (∀ now : ℚ, (play now (pause s)).simulationTimeRef = s.simulationTimeRef) := by
  refine ⟨rfl, rfl, rfl, rfl, rfl, rfl, fireTick_of_none rfl, ?_⟩
  intro now
  simp only [play, pause]
  split
  · rfl
  · split <;> rfl

theorem c8_witness :
    sPlayingEx.isPlaying = true ∧
    ((pause sPlayingEx).state = sPlayingEx.state ∧
      (pause sPlayingEx).trajectory = sPlayingEx.trajectory ∧
      (pause sPlayingEx).simulationTimeRef = sPlayingEx.simulationTimeRef ∧
      (pause sPlayingEx).animationRef = none ∧
      (pause sPlayingEx).isPlaying = false ∧
      (pause sPlayingEx).isPaused = true ∧
      fireTick (pause sPlayingEx) = pause sPlayingEx ∧
      (∀ now : ℚ, (play now (pause sPlayingEx)).simulationTimeRef
          = sPlayingEx.simulationTimeRef)) :=
  ⟨by norm_num [sPlayingEx, play, initialEngineState],
    c8_pause_preserves sPlayingEx (by norm_num [sPlayingEx, play, initialEngineState])⟩

/-- Invariants that hold in the initial state and are preserved by every
event also hold in every reachable state. -/
lemma reachable_invariant (P : EngineState → Prop)
    (hstep : ∀ c s, P s → P (step c s))
    (hinit : ∀ r g, P (initialEngineState r g)) :
    ∀ s, Reachable s → P s := by
  have hrun : ∀ (cs : List Cmd) (s : EngineState), P s → P (run s cs) := by
    intro cs
    induction cs with
    | nil => intro s h; exact h
    | cons c cs ih =>
      intro s h
      exact ih (step c s) (hstep c s h)
  rintro s ⟨r, g, cs, rfl⟩
  exact hrun cs _ (hinit r g)

/-- The three trajectory sequences have equal lengths. -/
def trajLenOk (s : EngineState) : Prop :=
  s.trajectory.positions.length = s.trajectory.times.length ∧
  s.trajectory.velocities.length = s.trajectory.times.length

lemma step_preserves_trajLenOk (c : Cmd) (s : EngineState)
    (h : trajLenOk s) : trajLenOk (step c s) := by
  obtain ⟨h1, h2⟩ := h
  cases c with
  | play now =>
    simp only [step, play]
    split
    · exact ⟨h1, h2⟩
    · split
      · exact ⟨rfl, rfl⟩
      · exact ⟨h1, h2⟩
  | pause => exact ⟨h1, h2⟩
  | reset => exact ⟨rfl, rfl⟩
  | setParams r g => exact ⟨h1, h2⟩
  | tick =>
    simp only [step, fireTick]
    cases href : s.animationRef with
    | none => exact ⟨h1, h2⟩
    | some c =>
      simp only [updateSimulation]
      split
      · constructor <;> simp [h1, h2]
      · constructor <;> simp [h1, h2]

/-- C9: in every reachable engine state, the three parallel trajectory
sequences (positions, velocities, times) have equal lengths. -/
theorem c9_trajectory_lengths_equal (s : EngineState) (h : Reachable s) :
    s.trajectory.positions.length = s.trajectory.times.length ∧
    s.trajectory.velocities.length = s.trajectory.times.length := by
  refine reachable_invariant trajLenOk step_preserves_trajLenOk ?_ s h
  intro r g
  exact ⟨rfl, rfl⟩

theorem c9_witness :
    Reachable (run (initialEngineState rEx 10) [Cmd.play 0, Cmd.tick]) ∧
    ((run (initialEngineState rEx 10) [Cmd.play 0, Cmd.tick]).trajectory.positions.length
        = (run (initialEngineState rEx 10) [Cmd.play 0, Cmd.tick]).trajectory.times.length ∧
      (run (initialEngineState rEx 10) [Cmd.play 0, Cmd.tick]).trajectory.velocities.length
        = (run (initialEngineState rEx 10) [Cmd.play 0, Cmd.tick]).trajectory.times.length) :=
  ⟨⟨rEx, 10, [Cmd.play 0, Cmd.tick], rfl⟩,
    c9_trajectory_lengths_equal _ ⟨rEx, 10, [Cmd.play 0, Cmd.tick], rfl⟩⟩

/-- The two exposed booleans are never simultaneously true. -/
def flagsOk (s : EngineState) : Prop :=
  s.isPlaying = false ∨ s.isPaused = false

lemma step_preserves_flagsOk (c : Cmd) (s : EngineState)
    (h : flagsOk s) : flagsOk (step c s) := by
  cases c with
  | play now =>
    simp only [step, play]
    split
    · exact h
    · split
      · exact Or.inr rfl
      · exact Or.inr rfl
  | pause => exact Or.inl rfl
  | reset => exact Or.inl rfl
  | setParams r g => exact h
  | tick =>
    simp only [step, fireTick]
    cases href : s.animationRef with
    | none => exact h
    | some c =>
      simp only [updateSimulation]
      split
      · exact Or.inl rfl
      · exact h

/-- C10: in every reachable engine state, the exposed `isPlaying` and
`isPaused` booleans are never both true. -/
theorem c10_never_playing_and_paused (s : EngineState) (h : Reachable s) :
    s.isPlaying = false ∨ s.isPaused = false :=
  reachable_invariant flagsOk step_preserves_flagsOk (fun _ _ => Or.inl rfl) s h

theorem c10_witness :
    Reachable sPlayingEx ∧
    (sPlayingEx.isPlaying = false ∨ sPlayingEx.isPaused = false) :=
  ⟨⟨rEx, 10, [Cmd.play 5], rfl⟩,
    c10_never_playing_and_paused sPlayingEx ⟨rEx, 10, [Cmd.play 5], rfl⟩⟩

/-- Replacing the parameters commutes with a frame firing: the pending
closure uses only the values it captured, never the current render's
`results`/`gravity`. -/
lemma fireTick_setParams (r : CalculatedResults ℚ) (g : ℚ) (s : EngineState) :
    fireTick (setParams r g s) = setParams r g (fireTick s) := by
  simp only [fireTick, setParams]
  cases href : s.animationRef with
  | none => simp [href]
  | some c =>
    simp only [updateSimulation]
    split
    · rfl
    · rfl

lemma iterate_fireTick_setParams (r : CalculatedResults ℚ) (g : ℚ)
    (s : EngineState) :
    ∀ n : ℕ, fireTick^[n] (setParams r g s) = setParams r g (fireTick^[n] s) := by
  intro n
  induction n with
  | zero => rfl
  | succ n ih =>
    rw [Function.iterate_succ_apply', Function.iterate_succ_apply', ih,
      fireTick_setParams]

/-- C1: replacing the launch parameters while the engine is Running does not
alter the run already underway — after any number of further frames, the
trajectory, projectile state, virtual clock, pending closure (hence the
cached completion bound and final clamped sample) and completion count are
identical with and without the mid-run replacement. -/
theorem c1_midrun_param_change_is_invisible (s : EngineState)
    (r : CalculatedResults ℚ) (g : ℚ) (h : s.isPlaying = true) (n : ℕ) :
    (fireTick^[n] (setParams r g s)).trajectory = (fireTick^[n] s).trajectory ∧
    (fireTick^[n] (setParams r g s)).state = (fireTick^[n] s).state ∧
    (fireTick^[n] (setParams r g s)).simulationTimeRef
        = (fireTick^[n] s).simulationTimeRef ∧
    (fireTick^[n] (setParams r g s)).animationRef = (fireTick^[n] s).animationRef ∧
    (fireTick^[n] (setParams r g s)).completeCount = (fireTick^[n] s).completeCount := by
  rw [iterate_fireTick_setParams]
  exact ⟨rfl, rfl, rfl, rfl, rfl⟩

theorem c1_witness :
    sPlayingEx.isPlaying = true ∧
    ((fireTick^[2] (setParams rZeroEx 3 sPlayingEx)).trajectory
        = (fireTick^[2] sPlayingEx).trajectory ∧
      (fireTick^[2] (setParams rZeroEx 3 sPlayingEx)).state
        = (fireTick^[2] sPlayingEx).state ∧
      (fireTick^[2] (setParams rZeroEx 3 sPlayingEx)).simulationTimeRef
        = (fireTick^[2] sPlayingEx).simulationTimeRef ∧
      (fireTick^[2] (setParams rZeroEx 3 sPlayingEx)).animationRef
        = (fireTick^[2] sPlayingEx).animationRef ∧
      (fireTick^[2] (setParams rZeroEx 3 sPlayingEx)).completeCount
        = (fireTick^[2] sPlayingEx).completeCount) :=
  ⟨by norm_num [sPlayingEx, play, initialEngineState],
    c1_midrun_param_change_is_invisible sPlayingEx rZeroEx 3
      (by norm_num [sPlayingEx, play, initialEngineState]) 2⟩

/-- C3 counterexample: with `timeOfFlight = 0`, the first tick after
`play()` does NOT run the completion branch — `0 > 0` is false, so an
ordinary sample with `isActive = true` is appended, the engine is still
playing, and no completion notification has fired. -/
theorem c3_counterexample :
    rZeroEx.timeOfFlight = 0 ∧
    (fireTick (play 0 (initialEngineState rZeroEx 10))).isPlaying = true ∧
    (fireTick (play 0 (initialEngineState rZeroEx 10))).state.isActive = true ∧
    (fireTick (play 0 (initialEngineState rZeroEx 10))).completeCount = 0 := by
  refine ⟨rfl, ?_, ?_, ?_⟩ <;>
    norm_num [play, fireTick, updateSimulation, initialEngineState, createInitialState,
      rZeroEx]

/-- C3 amended: for a degenerate launch with `timeOfFlight = 0`, the first
tick after `play()` runs the ordinary branch, appending one sample with
`isActive = true` at elapsed time `0`; the engine transitions to Completed
on the second tick, appending the clamped final sample; `progress` is `0`
throughout (the `timeOfFlight > 0` guard avoids any division by zero). -/
theorem c3_degenerate_completes_on_second_tick (r : CalculatedResults ℚ)
    (g now : ℚ) (h : r.timeOfFlight = 0) :
    (runEngine r g now 1).isPlaying = true ∧
    (runEngine r g now 1).state.isActive = true ∧
    (runEngine r g now 1).completeCount = 0 ∧
    progress (runEngine r g now 1) = 0 ∧
    (runEngine r g now 2).isPlaying = false ∧
    (runEngine r g now 2).state.isActive = false ∧
    (runEngine r g now 2).completeCount = 1 ∧
    (runEngine r g now 2).animationRef = none ∧
    progress (runEngine r g now 2) = 0 ∧
    (runEngine r g now 2).trajectory.times = [0, 0, 0] := by
  simp only [runEngine]
  norm_num [Function.iterate_succ_apply', Function.iterate_zero_apply, play, fireTick,
    updateSimulation, initialEngineState, createInitialState, progress, h, TIME_STEP]

theorem c3_witness :
    rZeroEx.timeOfFlight = 0 ∧
    ((runEngine rZeroEx 10 0 1).isPlaying = true ∧
      (runEngine rZeroEx 10 0 1).state.isActive = true ∧
      (runEngine rZeroEx 10 0 1).completeCount = 0 ∧
      progress (runEngine rZeroEx 10 0 1) = 0 ∧
      (runEngine rZeroEx 10 0 2).isPlaying = false ∧
      (runEngine rZeroEx 10 0 2).state.isActive = false ∧
      (runEngine rZeroEx 10 0 2).completeCount = 1 ∧
      (runEngine rZeroEx 10 0 2).animationRef = none ∧
      progress (runEngine rZeroEx 10 0 2) = 0 ∧
      (runEngine rZeroEx 10 0 2).trajectory.times = [0, 0, 0]) :=
  ⟨rfl, c3_degenerate_completes_on_second_tick rZeroEx 10 0 rfl⟩

/-- While the virtual clock stays within the cached `timeOfFlight`, a run of
`n` frames after a fresh `play` has recorded the seed sample plus one
ordinary sample per frame, at times `0, 0, TIME_STEP, ..., (n-1)*TIME_STEP`,
with the clock at `n*TIME_STEP` and the closure still pending. -/
lemma run_inv (r : CalculatedResults ℚ) (g now : ℚ) :
    ∀ n : ℕ, (∀ k : ℕ, k < n → (k : ℚ) * TIME_STEP ≤ r.timeOfFlight) →
    (runEngine r g now n).trajectory.times
        = 0 :: (List.range n).map (fun i : ℕ => (i : ℚ) * TIME_STEP) ∧
    (runEngine r g now n).simulationTimeRef = (n : ℚ) * TIME_STEP ∧
    (runEngine r g now n).animationRef = some { results := r, gravity := g } := by
  intro n
  induction n with
  | zero =>
    intro _
    refine ⟨?_, ?_, ?_⟩ <;>
      norm_num [runEngine, play, initialEngineState]
  | succ n ih =>
    intro hb
    obtain ⟨ht, hs, ha⟩ := ih fun k hk => hb k (Nat.lt_succ_of_lt hk)
    have hcond : ¬ (runEngine r g now n).simulationTimeRef > r.timeOfFlight := by
      rw [hs]
      exact not_lt.mpr (hb n (Nat.lt_succ_self n))
    have hstep : runEngine r g now (n + 1) = fireTick (runEngine r g now n) := by
      simp [runEngine, Function.iterate_succ_apply']
    rw [hstep, fireTick_ordinary ha hcond]
    dsimp only
    refine ⟨?_, ?_, rfl⟩
    · rw [ht, hs, List.range_succ, List.map_append]
      simp
    · rw [hs]
      push_cast
      ring

/-- The expected times sequence of a completed run is nondecreasing. -/
lemma chain_le_completed_times (N : ℕ) (T : ℚ)
    (h1 : (N : ℚ) * TIME_STEP ≤ T) :
    List.Chain' (fun a b => a ≤ b)
      ((0 :: (List.range (N + 1)).map (fun i : ℕ => (i : ℚ) * TIME_STEP)) ++ [T]) := by
  rw [List.chain'_append]
  refine ⟨?_, List.chain'_singleton T, ?_⟩
  · rw [List.chain'_cons']
    constructor
    · intro y hy
      rw [List.range_succ_eq_map, List.map_cons, List.head?_cons] at hy
      simp only [Option.mem_some_iff] at hy
      rw [← hy]
      norm_num
    · rw [List.chain'_map, List.chain'_range_succ]
      intro m _
      have hm : (m : ℚ) ≤ (m : ℚ) + 1 := by linarith
      push_cast
      exact mul_le_mul_of_nonneg_right hm (le_of_lt timeStepPos)
  · intro x hx y hy
    simp only [List.head?_cons, Option.mem_some_iff] at hy
    rw [List.range_succ, List.map_append] at hx
    simp only [List.map_cons, List.map_nil] at hx
    rw [← List.cons_append, List.getLast?_concat] at hx
    simp only [Option.mem_some_iff] at hx
    rw [← hx, ← hy]
    exact h1

/-- C2 counterexample: one uninterrupted Running period in which consecutive
trajectory elapsed times are NOT strictly increasing — `play()` seeds a
sample at `t = 0` and the first tick appends a second sample at `t = 0`. -/
theorem c2_counterexample :
    (fireTick (play 0 (initialEngineState rEx 10))).trajectory.times = [0, 0] ∧
    ¬ List.Chain' (fun a b => a < b)
        (fireTick (play 0 (initialEngineState rEx 10))).trajectory.times := by
  have ht : (fireTick (play 0 (initialEngineState rEx 10))).trajectory.times = [0, 0] := by
    norm_num [play, fireTick, updateSimulation, initialEngineState, createInitialState, rEx]
  refine ⟨ht, ?_⟩
  rw [ht]
  simp

/-- C2 amended: across one uninterrupted Running period from a fresh
`play()` to completion (`N` is the last step index with
`N*TIME_STEP ≤ timeOfFlight`), the recorded elapsed times are exactly
`0 :: [0, TIME_STEP, ..., N*TIME_STEP] ++ [timeOfFlight]`: they are
nondecreasing rather than strictly increasing (the seed sample at `t = 0`
is duplicated by the first tick, and the landing time may equal the last
ordinary time), consecutive ordinary samples differ by exactly `TIME_STEP`,
and the landing sample is the last entry. -/
theorem c2_times_closed_form (r : CalculatedResults ℚ) (g now : ℚ) (N : ℕ)
    (h1 : (N : ℚ) * TIME_STEP ≤ r.timeOfFlight)
    (h2 : r.timeOfFlight < ((N : ℚ) + 1) * TIME_STEP) :
    (runEngine r g now (N + 2)).trajectory.times
        = (0 :: (List.range (N + 1)).map (fun i : ℕ => (i : ℚ) * TIME_STEP))
            ++ [r.timeOfFlight] ∧
    List.Chain' (fun a b => a ≤ b) (runEngine r g now (N + 2)).trajectory.times ∧
    ((runEngine r g now (N + 2)).trajectory.times).getLast? = some r.timeOfFlight ∧
    (runEngine r g now (N + 2)).animationRef = none ∧
    (runEngine r g now (N + 2)).isPlaying = false := by
  have hb : ∀ k : ℕ, k < N + 1 → (k : ℚ) * TIME_STEP ≤ r.timeOfFlight := by
    intro k hk
    have hk' : (k : ℚ) ≤ (N : ℚ) := by exact_mod_cast Nat.lt_succ_iff.mp hk
    calc (k : ℚ) * TIME_STEP ≤ (N : ℚ) * TIME_STEP :=
          mul_le_mul_of_nonneg_right hk' (le_of_lt timeStepPos)
      _ ≤ r.timeOfFlight := h1
  obtain ⟨ht, hs, ha⟩ := run_inv r g now (N + 1) hb
  have hcond : (runEngine r g now (N + 1)).simulationTimeRef > r.timeOfFlight := by
    rw [hs]
    push_cast
    linarith
  have hstep : runEngine r g now (N + 2) = fireTick (runEngine r g now (N + 1)) := by
    simp [runEngine, Function.iterate_succ_apply']
  rw [hstep, fireTick_completion ha hcond]
  dsimp only
  refine ⟨?_, ?_, ?_, rfl, rfl⟩
  · rw [ht]
  · rw [ht]
    exact chain_le_completed_times N r.timeOfFlight h1
  · rw [ht, List.getLast?_concat]

theorem c2_witness :
    ((1 : ℚ) * TIME_STEP ≤ rStepEx.timeOfFlight ∧
      rStepEx.timeOfFlight < ((1 : ℚ) + 1) * TIME_STEP) ∧
    ((runEngine rStepEx 10 0 3).trajectory.times
        = (0 :: (List.range 2).map (fun i : ℕ => (i : ℚ) * TIME_STEP))
            ++ [rStepEx.timeOfFlight] ∧
      List.Chain' (fun a b => a ≤ b) (runEngine rStepEx 10 0 3).trajectory.times ∧
      ((runEngine rStepEx 10 0 3).trajectory.times).getLast? = some rStepEx.timeOfFlight ∧
      (runEngine rStepEx 10 0 3).animationRef = none ∧
      (runEngine rStepEx 10 0 3).isPlaying = false) :=
  ⟨⟨by norm_num [rStepEx, TIME_STEP], by norm_num [rStepEx, TIME_STEP]⟩,
    c2_times_closed_form rStepEx 10 0 1
      (by norm_num [rStepEx, TIME_STEP]) (by norm_num [rStepEx, TIME_STEP])⟩
